import Mathlib

/-!
Verification development for the Rock-Paper-Scissors(-Lizard-Spock) game in
`advanced_rps_game.py`.  We shallowly embed the rulesets, the outcome resolver
`decide_winner`, the `Match` state machine, the move-selection supports of the
three AI strategies, the Elo-style rating update and the post-match
achievement logic, and prove the specified properties about them.

Randomness (`random.choice(candidates)`) is modelled by the candidate list
itself: every theorem about a strategy's chosen move is stated over the list
of moves the strategy may return.
-/

namespace RPSGame

/-- Moves are opaque string labels, value-compared, exactly as in the source. -/
abbrev Move := String

/-- Mirrors `winner_map.get(move_a, set())`: association-list lookup that
returns the empty beats-set when the key is absent. -/
def lookupWm (wm : List (Move × List Move)) (m : Move) : List Move :=
  (wm.lookup m).getD []

/-- Embeds `decide_winner(move_a, move_b, winner_map)`: `0` on equal moves,
`1` when `move_b` is in `winner_map.get(move_a, set())`, else `-1`. -/
def decide_winner (move_a move_b : Move) (wm : List (Move × List Move)) : Int :=
  if move_a = move_b then 0
  else if move_b ∈ lookupWm wm move_a then 1
  else -1

/-- Embeds `RULESETS["RPS"]["moves"]`. -/
def RPS_moves : List Move := ["rock", "paper", "scissors"]

/-- Embeds `RULESETS["RPS"]["winner_map"]` (insertion order kept). -/
def RPS_winner_map : List (Move × List Move) :=
  [("rock", ["scissors"]), ("paper", ["rock"]), ("scissors", ["paper"])]

/-- Embeds `RULESETS["RPSLS"]["moves"]`. -/
def RPSLS_moves : List Move := ["rock", "paper", "scissors", "lizard", "spock"]

/-- Embeds `RULESETS["RPSLS"]["winner_map"]` (insertion order kept). -/
def RPSLS_winner_map : List (Move × List Move) :=
  [("rock", ["scissors", "lizard"]), ("paper", ["rock", "spock"]),
   ("scissors", ["paper", "lizard"]), ("lizard", ["spock", "paper"]),
   ("spock", ["scissors", "rock"])]

/-- C1: the outcome resolver returns TIE (0) on equal moves, a first-mover win
(1) when the second move is in the ruleset's beats-set of the first move, and
a second-mover win (-1) otherwise, for every ruleset; in particular under RPS,
rock vs scissors is WIN_A, rock vs paper is WIN_B, and paper vs paper is TIE. -/
theorem c1_decide_winner_cases :
    (∀ (wm : List (Move × List Move)) (a b : Move),
      (a = b → decide_winner a b wm = 0) ∧
      (a ≠ b → b ∈ lookupWm wm a → decide_winner a b wm = 1) ∧
      (a ≠ b → b ∉ lookupWm wm a → decide_winner a b wm = -1)) ∧
    decide_winner "rock" "scissors" RPS_winner_map = 1 ∧
    decide_winner "rock" "paper" RPS_winner_map = -1 ∧
    decide_winner "paper" "paper" RPS_winner_map = 0 := by
  refine ⟨fun wm a b => ⟨?_, ?_, ?_⟩, by decide, by decide, by decide⟩
  · intro h
    simp [decide_winner, h]
  · intro hne hmem
    simp [decide_winner, hne, hmem]
  · intro hne hmem
    simp [decide_winner, hne, hmem]

/-- Witness for C1 at a concrete input: lizard beats spock in RPSLS. -/
theorem c1_witness : decide_winner "lizard" "spock" RPSLS_winner_map = 1 :=
  (c1_decide_winner_cases.1 RPSLS_winner_map "lizard" "spock").2.1
    (by decide) (by decide)

/-- Embeds the mutable fields of `Match`: `self.rounds`,
`self.scores = {"player": 0, "ai": 0, "ties": 0}` and `self.move_history`.
The AI instance is kept outside the state (its move enters `play_round` as an
argument, standing for the value returned by `choose_move`). -/
structure MatchState where
  rounds : Nat
  player : Nat
  ai : Nat
  ties : Nat
  move_history : List (Move × Move)
  deriving Repr, DecidableEq

/-- Embeds `Match.__init__`: all scores zero, empty history. -/
def Match.init (rounds : Nat) : MatchState :=
  { rounds := rounds, player := 0, ai := 0, ties := 0, move_history := [] }

/-- Embeds `Match.play_round(player_move)` with the AI's chosen move passed in
explicitly: resolve the outcome, increment exactly one score counter, append
the round to the history.  (`self.ai.observe` touches only AI-internal state.) -/
def play_round (wm : List (Move × List Move)) (s : MatchState)
    (player_move ai_move : Move) : MatchState :=
  let res := decide_winner player_move ai_move wm
  let s' :=
    if res = 1 then { s with player := s.player + 1 }
    else if res = -1 then { s with ai := s.ai + 1 }
    else { s with ties := s.ties + 1 }
  { s' with move_history := s'.move_history ++ [(player_move, ai_move)] }

/-- Embeds `Match.is_over`: `needed = rounds // 2 + 1`, over when either the
player or the AI score has reached `needed`. -/
def is_over (s : MatchState) : Bool :=
  let needed := s.rounds / 2 + 1
  s.player ≥ needed || s.ai ≥ needed

/-- Runs a sequence of rounds, each given as a (player move, AI move) pair. -/
def play_rounds (wm : List (Move × List Move)) (s : MatchState) :
    List (Move × Move) → MatchState
  | [] => s
  | (pm, am) :: rest => play_rounds wm (play_round wm s pm am) rest

/-- C2: `is_over` holds exactly when a score reached `rounds / 2 + 1`; for a
best-of-3 match that threshold is 2 round-wins; and a tied round (resolver
returns 0) leaves both the player score and the AI score unchanged. -/
theorem c2_is_over_threshold :
    (∀ s : MatchState,
      (is_over s = true ↔
        s.player ≥ s.rounds / 2 + 1 ∨ s.ai ≥ s.rounds / 2 + 1)) ∧
    (∀ s : MatchState, s.rounds = 3 →
      (is_over s = true ↔ s.player ≥ 2 ∨ s.ai ≥ 2)) ∧
    (∀ (wm : List (Move × List Move)) (s : MatchState) (pm am : Move),
      decide_winner pm am wm = 0 →
      (play_round wm s pm am).player = s.player ∧
      (play_round wm s pm am).ai = s.ai) := by
  refine ⟨fun s => ?_, fun s h => ?_, fun wm s pm am h => ?_⟩
  · simp [is_over]
  · simp [is_over, h]
  · simp [play_round, h]

/-- Witness for C2 at concrete inputs: a 3-round match with a 2-0 score is
over, and a tied round on a fresh match leaves both scores at zero. -/
theorem c2_witness :
    is_over { rounds := 3, player := 2, ai := 0, ties := 0,
              move_history := [] : MatchState } = true ∧
    (play_round RPS_winner_map (Match.init 3) "rock" "rock").player = 0 ∧
    (play_round RPS_winner_map (Match.init 3) "rock" "rock").ai = 0 := by
  refine ⟨?_, ?_, ?_⟩
  · exact (c2_is_over_threshold.2.1 _ rfl).mpr (Or.inl (by decide))
  · exact (c2_is_over_threshold.2.2 RPS_winner_map (Match.init 3)
      "rock" "rock" (by decide)).1
  · exact (c2_is_over_threshold.2.2 RPS_winner_map (Match.init 3)
      "rock" "rock" (by decide)).2

/-- Helper: one `play_round` call adds exactly one to the score total and one
record to the history, whatever the round's outcome. -/
theorem play_round_step (wm : List (Move × List Move)) (s : MatchState)
    (pm am : Move) :
    (play_round wm s pm am).player + (play_round wm s pm am).ai +
        (play_round wm s pm am).ties = s.player + s.ai + s.ties + 1 ∧
    (play_round wm s pm am).move_history.length =
        s.move_history.length + 1 := by
  by_cases h1 : decide_winner pm am wm = 1
  · simp [play_round, h1]
    omega
  · by_cases h2 : decide_winner pm am wm = -1
    · simp [play_round, h1, h2]
      omega
    · simp [play_round, h1, h2]
      omega

/-- C10: each `play_round` bumps the score total by one and the history by one
record, so after any sequence of rounds from a fresh match the three counters
sum to the history length. -/
theorem c10_score_history_invariant :
    (∀ (wm : List (Move × List Move)) (s : MatchState) (pm am : Move),
      (play_round wm s pm am).player + (play_round wm s pm am).ai +
          (play_round wm s pm am).ties = s.player + s.ai + s.ties + 1 ∧
      (play_round wm s pm am).move_history.length =
          s.move_history.length + 1) ∧
    (∀ (wm : List (Move × List Move)) (rounds : Nat)
        (inputs : List (Move × Move)),
      (play_rounds wm (Match.init rounds) inputs).player +
        (play_rounds wm (Match.init rounds) inputs).ai +
        (play_rounds wm (Match.init rounds) inputs).ties =
      (play_rounds wm (Match.init rounds) inputs).move_history.length) := by
  refine ⟨play_round_step, fun wm rounds inputs => ?_⟩
  have general : ∀ (inputs : List (Move × Move)) (s : MatchState),
      s.player + s.ai + s.ties = s.move_history.length →
      (play_rounds wm s inputs).player + (play_rounds wm s inputs).ai +
        (play_rounds wm s inputs).ties =
      (play_rounds wm s inputs).move_history.length := by
    intro inputs
    induction inputs with
    | nil => intro s hs; simpa [play_rounds] using hs
    | cons hd tl ih =>
        intro s hs
        obtain ⟨pm, am⟩ := hd
        have hstep := play_round_step wm s pm am
        simp only [play_rounds]
        exact ih _ (by omega)
  exact general inputs (Match.init rounds) (by simp [Match.init])

/-- Counterexample to C5: after two player-winning rounds of a best-of-3 match
the match is over, yet one more `play_round` call still mutates the state,
raising the player score to 3 and growing the history to length 3. -/
theorem c5_counterexample :
    is_over (play_rounds RPS_winner_map (Match.init 3)
      [("rock", "scissors"), ("rock", "scissors")]) = true ∧
    (play_round RPS_winner_map
      (play_rounds RPS_winner_map (Match.init 3)
        [("rock", "scissors"), ("rock", "scissors")])
      "rock" "scissors").player = 3 ∧
    (play_round RPS_winner_map
      (play_rounds RPS_winner_map (Match.init 3)
        [("rock", "scissors"), ("rock", "scissors")])
      "rock" "scissors").move_history.length = 3 := by
  refine ⟨by decide, by decide, by decide⟩

/-- C5 amended: `play_round` itself performs no terminal-state check — called
on a match that is already over it still adds exactly one to the score total
and appends one record to the history; freedom from mutation after `Over` is
maintained only by the drivers, which test `is_over` before each call. -/
theorem c5_amended_play_round_unguarded :
    ∀ (wm : List (Move × List Move)) (s : MatchState) (pm am : Move),
      is_over s = true →
      (play_round wm s pm am).player + (play_round wm s pm am).ai +
          (play_round wm s pm am).ties = s.player + s.ai + s.ties + 1 ∧
      (play_round wm s pm am).move_history.length =
          s.move_history.length + 1 := by
  intro wm s pm am _
  exact play_round_step wm s pm am

/-- Witness for the amended C5 at a concrete over state. -/
theorem c5_amended_witness :
    (play_round RPS_winner_map
      { rounds := 3, player := 2, ai := 0, ties := 0,
        move_history := [] : MatchState } "rock" "paper").player +
      (play_round RPS_winner_map
        { rounds := 3, player := 2, ai := 0, ties := 0,
          move_history := [] : MatchState } "rock" "paper").ai +
      (play_round RPS_winner_map
        { rounds := 3, player := 2, ai := 0, ties := 0,
          move_history := [] : MatchState } "rock" "paper").ties = 3 ∧
    (play_round RPS_winner_map
      { rounds := 3, player := 2, ai := 0, ties := 0,
        move_history := [] : MatchState } "rock" "paper").move_history.length
      = 1 :=
  c5_amended_play_round_unguarded RPS_winner_map
    { rounds := 3, player := 2, ai := 0, ties := 0, move_history := [] }
    "rock" "paper" (by decide)

/-- Counterexample to C4: `"dynamite"` is not an RPS move, yet the resolver
does not fail — it returns the normal second-mover-win outcome `-1`. -/
theorem c4_counterexample :
    "dynamite" ∉ RPS_moves ∧
    decide_winner "dynamite" "rock" RPS_winner_map = -1 := by
  refine ⟨by decide, by decide⟩

/-- C4 amended: the resolver never fails on moves outside `ruleset.moves`; it
always returns one of the three normal outcomes, and when the first move is
not a key of the winner map (and the moves differ) the missing key reads as an
empty beats-set, so the result is a second-mover win (-1). -/
theorem c4_amended_no_failure :
    ∀ (wm : List (Move × List Move)) (a b : Move),
      (decide_winner a b wm = 0 ∨ decide_winner a b wm = 1 ∨
        decide_winner a b wm = -1) ∧
      (a ≠ b → wm.lookup a = none → decide_winner a b wm = -1) := by
  intro wm a b
  constructor
  · by_cases hab : a = b
    · exact Or.inl (by simp [decide_winner, hab])
    · by_cases hm : b ∈ lookupWm wm a
      · exact Or.inr (Or.inl (by simp [decide_winner, hab, hm]))
      · exact Or.inr (Or.inr (by simp [decide_winner, hab, hm]))
  · intro hab hnone
    simp [decide_winner, hab, lookupWm, hnone]

/-- Witness for the amended C4 at a concrete invalid move. -/
theorem c4_amended_witness :
    decide_winner "spock" "rock" RPS_winner_map = -1 :=
  (c4_amended_no_failure RPS_winner_map "spock" "rock").2
    (by decide) (by decide)

/-- C7: for distinct moves of the same ruleset (RPS or RPSLS), exactly one of
the two resolver orders yields a win for its first argument — never both, and
never neither. -/
theorem c7_beats_antisymmetric :
    (∀ a ∈ RPS_moves, ∀ b ∈ RPS_moves, a ≠ b →
      (decide_winner a b RPS_winner_map = 1 ↔
        ¬ decide_winner b a RPS_winner_map = 1)) ∧
    (∀ a ∈ RPSLS_moves, ∀ b ∈ RPSLS_moves, a ≠ b →
      (decide_winner a b RPSLS_winner_map = 1 ↔
        ¬ decide_winner b a RPSLS_winner_map = 1)) := by
  refine ⟨by decide, by decide⟩

/-- Witness for C7 at a concrete pair: spock beats scissors, and scissors does
not beat spock. -/
theorem c7_witness :
    decide_winner "spock" "scissors" RPSLS_winner_map = 1 ↔
      ¬ decide_winner "scissors" "spock" RPSLS_winner_map = 1 :=
  c7_beats_antisymmetric.2 "spock" (by decide) "scissors" (by decide)
    (by decide)

/-- Embeds the expected-score expression of `StatsManager.update_rating`:
`E = 1 / (1 + 10 ** ((opponent_rating - R) / 400))`, with Python floats read
as real numbers. -/
noncomputable def expected_score (opponent_rating R : ℝ) : ℝ :=
  1 / (1 + (10 : ℝ) ^ ((opponent_rating - R) / 400))

/-- Embeds `StatsManager.update_rating`: the stored rating becomes
`round(R + ELO_K * (result_value - E))` with `ELO_K = 20`. -/
noncomputable def update_rating (R opponent_rating result_value : ℝ) : ℤ :=
  round (R + (20 : ℝ) * (result_value - expected_score opponent_rating R))

/-- C3: for every pair of ratings and result value in {1.0, 0.5, 0.0}, the
rating update stores `round(R + 20 * (v - E))` with
`E = 1 / (1 + 10 ^ ((O - R) / 400))`; at R = O = 1200 with a win it yields
1210. -/
theorem c3_rating_update :
    (∀ R O v : ℝ, v = 1 ∨ v = 1 / 2 ∨ v = 0 →
      update_rating R O v =
        round (R + 20 * (v - 1 / (1 + (10 : ℝ) ^ ((O - R) / 400))))) ∧
    update_rating 1200 1200 1 = 1210 := by
  constructor
  · intro R O v _
    rfl
  · have h0 : ((1200 : ℝ) - 1200) / 400 = 0 := by norm_num
    unfold update_rating expected_score
    rw [h0, Real.rpow_zero]
    have h1 : (1200 : ℝ) + 20 * (1 - 1 / (1 + 1)) = ((1210 : ℤ) : ℝ) := by
      norm_num
    rw [h1, round_intCast]

/-- Witness for C3 at the concrete inputs R = O = 1200, v = 1. -/
theorem c3_witness :
    update_rating 1200 1200 1 =
      round ((1200 : ℝ) +
        20 * (1 - 1 / (1 + (10 : ℝ) ^ (((1200 : ℝ) - 1200) / 400)))) :=
  c3_rating_update.1 1200 1200 1 (Or.inl rfl)

/-- Embeds `Counter[m] += 1` on an insertion-ordered counter: bump an existing
key in place, or append a fresh key with count 1 at the end. -/
def counterInc (c : List (Move × Nat)) (m : Move) : List (Move × Nat) :=
  match c with
  | [] => [(m, 1)]
  | (k, v) :: rest =>
      if k = m then (k, v + 1) :: rest else (k, v) :: counterInc rest m

/-- The fold underlying `Counter.most_common(1)[0]`: scan the entries keeping
the current best, replacing it only on a strictly larger count — so among
equal counts the earliest entry survives, matching the stability of Python's
`sorted` used by `most_common`. -/
def pickMax (x : Move × Nat) (xs : List (Move × Nat)) : Move × Nat :=
  xs.foldl (fun best p => if p.2 > best.2 then p else best) x

/-- Embeds `Counter.most_common(1)[0][0]` (`none` on an empty counter). -/
def mostCommon1 (c : List (Move × Nat)) : Option Move :=
  match c with
  | [] => none
  | x :: xs => some (pickMax x xs).1

/-- Largest count appearing in a counter. -/
def maxCount (c : List (Move × Nat)) : Nat :=
  (c.map Prod.snd).foldr max 0

/-- Modelled from the spec's tie-break wording: the first key attaining the
maximum count, in count-table iteration order. -/
def firstMaxKey (c : List (Move × Nat)) : Option Move :=
  (c.find? (fun p => p.2 = maxCount c)).map Prod.fst

/-- Embeds the counter-move comprehension shared by `FrequencyAI` and
`MarkovAI`: `[m for m, beats in winner_map.items() if predicted in beats]`. -/
def counters_for (wm : List (Move × List Move)) (predicted : Move) :
    List Move :=
  (wm.filter (fun p => predicted ∈ p.2)).map Prod.fst

/-- Candidate moves of `RandomAI.choose_move`: `random.choice` over the
ruleset's move list. -/
def random_candidates (moves : List Move) : List Move := moves

/-- Candidate moves of `FrequencyAI.choose_move`: the whole move list when no
observation was made (`mostCommon1` is `none` exactly on the empty counter),
otherwise the counters of the predicted move, falling back to the move list
when no move beats the prediction. -/
def freq_choose_candidates (wm : List (Move × List Move)) (moves : List Move)
    (freq : List (Move × Nat)) : List Move :=
  match mostCommon1 freq with
  | none => moves
  | some predicted =>
      if counters_for wm predicted = [] then moves
      else counters_for wm predicted

/-- Embeds `FrequencyAI.observe`: `self.freq[player_move] += 1`. -/
def freq_observe (freq : List (Move × Nat)) (player_move : Move) :
    List (Move × Nat) :=
  counterInc freq player_move

/-- Folds `FrequencyAI.observe` over a sequence of observed human moves. -/
def freq_observe_all (freq : List (Move × Nat)) (ms : List Move) :
    List (Move × Nat) :=
  ms.foldl freq_observe freq

/-- Embeds the mutable fields of `MarkovAI`: the first-order transition table
(a `defaultdict(Counter)`), the most recent human move, and the overall
frequency fallback. -/
structure MarkovState where
  transition : List (Move × List (Move × Nat))
  prev : Option Move
  player_freq : List (Move × Nat)

/-- Reads `self.transition[p]` with the `defaultdict` empty-counter default. -/
def lookupTransition (t : List (Move × List (Move × Nat))) (p : Move) :
    List (Move × Nat) :=
  (t.lookup p).getD []

/-- Embeds `MarkovAI.predict_next`: the most common successor of the previous
move when transitions for it exist, else the most frequent move overall, else
no prediction. -/
def predict_next (st : MarkovState) : Option Move :=
  match st.prev with
  | some p =>
      match mostCommon1 (lookupTransition st.transition p) with
      | some nex => some nex
      | none => mostCommon1 st.player_freq
  | none => mostCommon1 st.player_freq

/-- Embeds the `defaultdict` write `self.transition[prev][player_move] += 1`
(a missing `prev` key appears at the end of the table). -/
def transitionInc (t : List (Move × List (Move × Nat))) (p m : Move) :
    List (Move × List (Move × Nat)) :=
  match t with
  | [] => [(p, [(m, 1)])]
  | (k, c) :: rest =>
      if k = p then (k, counterInc c m) :: rest
      else (k, c) :: transitionInc rest p m

/-- Embeds `MarkovAI.observe`: record the transition from the previous human
move (when one exists), advance the previous-move pointer, and bump the
overall frequency. -/
def markov_observe (st : MarkovState) (player_move : Move) : MarkovState :=
  { transition :=
      match st.prev with
      | none => st.transition
      | some p => transitionInc st.transition p player_move
    prev := some player_move
    player_freq := counterInc st.player_freq player_move }

/-- Candidate moves of `MarkovAI.choose_move`: counters of the prediction when
one exists and is counterable, else the whole move list. -/
def markov_choose_candidates (wm : List (Move × List Move))
    (moves : List Move) (st : MarkovState) : List Move :=
  match predict_next st with
  | none => moves
  | some predicted =>
      if counters_for wm predicted = [] then moves
      else counters_for wm predicted

/-- Helper: every counter-move comes from the winner map's key list. -/
theorem counters_for_subset_keys (wm : List (Move × List Move))
    (p m : Move) (h : m ∈ counters_for wm p) : m ∈ wm.map Prod.fst := by
  simp only [counters_for, List.mem_map, List.mem_filter] at h
  obtain ⟨x, ⟨hx, _⟩, rfl⟩ := h
  exact List.mem_map_of_mem Prod.fst hx

/-- Helper: the counters-or-fallback branch only ever yields legal moves,
provided the winner map's keys are themselves legal moves. -/
theorem counter_branch_mem (wm : List (Move × List Move)) (moves : List Move)
    (pred m : Move) (hkeys : ∀ k ∈ wm.map Prod.fst, k ∈ moves)
    (h : m ∈ (if counters_for wm pred = [] then moves
              else counters_for wm pred)) :
    m ∈ moves := by
  by_cases hc : counters_for wm pred = []
  · rw [if_pos hc] at h
    exact h
  · rw [if_neg hc] at h
    exact hkeys m (counters_for_subset_keys wm pred m h)

/-- C6: under RPS as well as RPSLS, every move any of the three strategies can
return — for any internal adaptive state — belongs to the ruleset's move
list. -/
theorem c6_strategies_legal_moves :
    ∀ (moves : List Move) (wm : List (Move × List Move)),
      (moves = RPS_moves ∧ wm = RPS_winner_map) ∨
        (moves = RPSLS_moves ∧ wm = RPSLS_winner_map) →
      ∀ m : Move,
        (m ∈ random_candidates moves → m ∈ moves) ∧
        (∀ freq : List (Move × Nat),
          m ∈ freq_choose_candidates wm moves freq → m ∈ moves) ∧
        (∀ st : MarkovState,
          m ∈ markov_choose_candidates wm moves st → m ∈ moves) := by
  intro moves wm hrs m
  have hkeys : ∀ k ∈ wm.map Prod.fst, k ∈ moves := by
    rcases hrs with ⟨hm, hw⟩ | ⟨hm, hw⟩ <;> subst hm <;> subst hw <;> decide
  refine ⟨fun h => h, ?_, ?_⟩
  · intro freq h
    unfold freq_choose_candidates at h
    cases hmc : mostCommon1 freq with
    | none => rw [hmc] at h; exact h
    | some predicted =>
        rw [hmc] at h
        exact counter_branch_mem wm moves predicted m hkeys h
  · intro st h
    unfold markov_choose_candidates at h
    cases hmc : predict_next st with
    | none => rw [hmc] at h; exact h
    | some predicted =>
        rw [hmc] at h
        exact counter_branch_mem wm moves predicted m hkeys h

/-- Witness for C6 at a concrete state: against three observed rocks, the
Frequency strategy's only candidate, paper, is a legal RPS move. -/
theorem c6_witness : "paper" ∈ RPS_moves :=
  ((c6_strategies_legal_moves RPS_moves RPS_winner_map
    (Or.inl ⟨rfl, rfl⟩) "paper").2.1 [("rock", 3)] (by decide))

/-- Helper: the counter unfolds one cons at a time. -/
theorem maxCount_cons (y : Move × Nat) (ys : List (Move × Nat)) :
    maxCount (y :: ys) = max y.2 (maxCount ys) := rfl

/-- Helper: the best-so-far fold finds exactly the first entry that attains
the maximum count, in iteration order. -/
theorem find?_eq_pickMax :
    ∀ (xs : List (Move × Nat)) (x : Move × Nat),
      (x :: xs).find? (fun p => p.2 = max x.2 (maxCount xs)) =
        some (pickMax x xs) := by
  intro xs
  induction xs with
  | nil =>
      intro x
      simp [pickMax, maxCount, List.find?]
  | cons y ys ih =>
      intro x
      by_cases hxy : y.2 > x.2
      · have hM : max x.2 (maxCount (y :: ys)) = max y.2 (maxCount ys) := by
          rw [maxCount_cons]
          omega
        have hpick : pickMax x (y :: ys) = pickMax y ys := by
          simp [pickMax, hxy]
        rw [hpick]
        simp only [hM]
        rw [List.find?_cons_of_neg]
        · exact ih y
        · simp only [decide_eq_true_eq]
          omega
      · have hM : max x.2 (maxCount (y :: ys)) = max x.2 (maxCount ys) := by
          rw [maxCount_cons]
          omega
        have hpick : pickMax x (y :: ys) = pickMax x ys := by
          simp [pickMax, hxy]
        rw [hpick]
        simp only [hM]
        have hIH := ih x
        by_cases hx : x.2 = max x.2 (maxCount ys)
        · rw [List.find?_cons_of_pos _ (by simpa using hx)] at hIH
          rw [List.find?_cons_of_pos _ (by simpa using hx)]
          exact hIH
        · rw [List.find?_cons_of_neg _ (by simpa using hx)] at hIH
          rw [List.find?_cons_of_neg _ (by simpa using hx)]
          rw [List.find?_cons_of_neg]
          · exact hIH
          · simp only [decide_eq_true_eq]
            omega

/-- Helper: on a nonempty counter, `most_common(1)` picks the first key
attaining the maximum count, in count-table iteration order — the spec's
tie-break. -/
theorem mostCommon1_eq_firstMaxKey (c : List (Move × Nat)) (h : c ≠ []) :
    mostCommon1 c = firstMaxKey c := by
  match c with
  | x :: xs =>
      unfold firstMaxKey
      simp only [maxCount_cons]
      rw [find?_eq_pickMax xs x]
      rfl

/-- C8: the Frequency strategy with no observations falls back to the whole
move list; with observations it predicts the first move attaining the maximum
observed count (in count-table iteration order) and restricts its candidates
to the moves beating that prediction (whole list if none); after observing
three rocks under RPS, its candidate list is exactly `["paper"]`. -/
theorem c8_frequency_strategy :
    (∀ (wm : List (Move × List Move)) (moves : List Move),
      freq_choose_candidates wm moves [] = moves) ∧
    (∀ (wm : List (Move × List Move)) (moves : List Move)
        (freq : List (Move × Nat)), freq ≠ [] →
      ∃ predicted, firstMaxKey freq = some predicted ∧
        mostCommon1 freq = some predicted ∧
        freq_choose_candidates wm moves freq =
          if counters_for wm predicted = [] then moves
          else counters_for wm predicted) ∧
    freq_observe_all [] ["rock", "rock", "rock"] = [("rock", 3)] ∧
    freq_choose_candidates RPS_winner_map RPS_moves
      (freq_observe_all [] ["rock", "rock", "rock"]) = ["paper"] := by
  refine ⟨fun wm moves => rfl, ?_, by decide, by decide⟩
  intro wm moves freq hne
  match freq with
  | x :: xs =>
      refine ⟨(pickMax x xs).1, ?_, rfl, ?_⟩
      · rw [← mostCommon1_eq_firstMaxKey _ hne]
        rfl
      · rfl

/-- Witness for C8 on a nonempty counter with tied counts: the earlier
entry, scissors, wins the tie-break. -/
theorem c8_witness :
    ∃ predicted,
      firstMaxKey [("scissors", 2), ("rock", 2)] = some predicted ∧
      mostCommon1 [("scissors", 2), ("rock", 2)] = some predicted ∧
      freq_choose_candidates RPS_winner_map RPS_moves
          [("scissors", 2), ("rock", 2)] =
        if counters_for RPS_winner_map predicted = [] then RPS_moves
        else counters_for RPS_winner_map predicted :=
  c8_frequency_strategy.2.1 RPS_winner_map RPS_moves
    [("scissors", 2), ("rock", 2)] (by decide)

/-- Embeds `StatsManager.add_achievement`: append the id only when absent. -/
def add_achievement (achievements : List String) (a : String) : List String :=
  if a ∈ achievements then achievements else achievements ++ [a]

/-- Embeds the First-Win block of `play_match_cli`: awarded when the match
result is a win and the stored win count (already updated) is exactly 1. -/
def award_first_win (result : String) (wins : Nat) (ach : List String) :
    List String :=
  if result = "win" ∧ wins = 1 then add_achievement ach "First Win" else ach

/-- Embeds the streak block of `play_match_cli`: the last three history
results (`history[-3:]`) must exist and all be wins. -/
def award_streak (history_results : List String) (ach : List String) :
    List String :=
  if (history_results.drop (history_results.length - 3)).length = 3 ∧
      (history_results.drop (history_results.length - 3)).all
        (fun r => r = "win")
  then add_achievement ach "Three win streak" else ach

/-- Embeds the predictable-player block of `play_match_cli`: when the match
had at least 3 rounds and the human's move was the same in every round, the
string `"Predictable Player (Cheater?)"` is awarded.  (The empty-history case
falls through, as the length guard short-circuits before `moves_only[0]`.) -/
def award_predictable (move_history : List (Move × Move))
    (ach : List String) : List String :=
  if 3 ≤ (move_history.map Prod.fst).length ∧
      (move_history.map Prod.fst).all
        (fun m => m = (move_history.map Prod.fst).headD "")
  then add_achievement ach "Predictable Player (Cheater?)" else ach

/-- Embeds the whole post-match achievement phase of `play_match_cli`, in the
order the source evaluates it. -/
def post_match_achievements (result : String) (wins : Nat)
    (history_results : List String) (move_history : List (Move × Move))
    (ach : List String) : List String :=
  award_predictable move_history
    (award_streak history_results (award_first_win result wins ach))

/-- Helper: awarding an achievement makes it a member. -/
theorem mem_add_achievement_self (l : List String) (a : String) :
    a ∈ add_achievement l a := by
  unfold add_achievement
  by_cases h : a ∈ l
  · rw [if_pos h]
    exact h
  · rw [if_neg h]
    exact List.mem_append_right _ (by simp)

/-- Counterexample to C9: a completed best-of-3 match in which the human
played rock every round.  The achievements produced contain the source's
string `"Predictable Player (Cheater?)"` but not the spec's string
`"Predictable Player"`. -/
theorem c9_counterexample :
    is_over (play_rounds RPS_winner_map (Match.init 3)
      [("rock", "scissors"), ("rock", "rock"), ("rock", "scissors")])
      = true ∧
    (play_rounds RPS_winner_map (Match.init 3)
      [("rock", "scissors"), ("rock", "rock"), ("rock", "scissors")]
      ).move_history
      = [("rock", "scissors"), ("rock", "rock"), ("rock", "scissors")] ∧
    post_match_achievements "win" 1 ["win"]
      [("rock", "scissors"), ("rock", "rock"), ("rock", "scissors")] [] =
      ["First Win", "Predictable Player (Cheater?)"] ∧
    "Predictable Player" ∉
      post_match_achievements "win" 1 ["win"]
        [("rock", "scissors"), ("rock", "rock"), ("rock", "scissors")] [] :=
  ⟨by decide, by decide, by decide, by decide⟩

/-- C9 amended: after every completed match in which the human played the
identical move in every round and the match had at least 3 rounds, the
achievement actually awarded by the code, `"Predictable Player (Cheater?)"`,
is present in the player's achievements. -/
theorem c9_amended_predictable :
    ∀ (result : String) (wins : Nat) (history_results : List String)
      (move_history : List (Move × Move)) (ach : List String)
      (m0 : Move) (tl : List Move),
      move_history.map Prod.fst = m0 :: tl →
      3 ≤ move_history.length →
      (∀ m ∈ move_history.map Prod.fst, m = m0) →
      "Predictable Player (Cheater?)" ∈
        post_match_achievements result wins history_results move_history
          ach := by
  intro result wins hist mh ach m0 tl hmap hlen hall
  unfold post_match_achievements award_predictable
  simp only [hmap, List.headD_cons]
  have hcond : 3 ≤ (m0 :: tl).length ∧
      (m0 :: tl).all (fun m => decide (m = m0)) = true := by
    constructor
    · have hlens := congrArg List.length hmap
      rw [List.length_map] at hlens
      rw [← hlens]
      exact hlen
    · rw [List.all_eq_true]
      intro m hm
      simp only [decide_eq_true_eq]
      exact hall m (by rw [hmap]; exact hm)
  rw [if_pos hcond]
  exact mem_add_achievement_self _ _

/-- Witness for the amended C9 at the concrete completed match of three
identical rock plays. -/
theorem c9_amended_witness :
    "Predictable Player (Cheater?)" ∈
      post_match_achievements "win" 1 ["win"]
        [("rock", "scissors"), ("rock", "rock"), ("rock", "scissors")] [] :=
  c9_amended_predictable "win" 1 ["win"]
    [("rock", "scissors"), ("rock", "rock"), ("rock", "scissors")] []
    "rock" ["rock", "rock"] (by decide) (by decide) (by decide)

end RPSGame
